import Mathlib

/-!
Shallow embedding of the Express backend (src/unnamed/part_000) of this
repository: the Groq upstream client `callGroq`, the file-backed history
log (`saveHistory`, `/history`, `/history/clear`), the JSON handlers
`/ai` and `/ig/caption`, the simulated SSE stream `/ai/stream`, and the
`/yt/transcript` stub.

JavaScript objects are embedded as ordered key/value lists over a small
JSON value type; strings are Lean `String`s (their `data` giving the unit
sequence that JS `slice`/`length` operate on); the process clock
(`Date.now()` / `new Date().toISOString()`) is a `Nat` of epoch
milliseconds passed to each handler, with `toISOString` implemented from
the ECMAScript specification (days-to-civil-date conversion); the
outcome of the single `fetch` to the Groq API is an explicit
`FetchOutcome` argument, and the outcome of `fs.writeFileSync` is a
Boolean argument.
-/

/-- A primitive JSON value as stored in a history record field. -/
inductive JVal where
  | num (n : Nat)
  | str (s : String)
  | bool (b : Bool)
  deriving DecidableEq, Repr

/-- A history record: a JS object literal, as an ordered key/value list. -/
abbrev HRec := List (String × JVal)

/-- Field lookup on a JS object (first binding of the key, as in a JS object
literal where keys are distinct). -/
def fieldOf (r : HRec) (k : String) : Option JVal :=
  (r.find? (fun kv => kv.1 == k)).map (·.2)

/-- The decimal digit character for `n % 10`. -/
def digitChar (n : Nat) : Char := Char.ofNat (48 + n % 10)

/-- Two-digit zero-padded decimal rendering (exact for `n < 100`). -/
def pad2 (n : Nat) : List Char := [digitChar (n / 10), digitChar n]

/-- Three-digit zero-padded decimal rendering (exact for `n < 1000`). -/
def pad3 (n : Nat) : List Char := [digitChar (n / 100), digitChar (n / 10), digitChar n]

/-- Four-digit zero-padded decimal rendering (exact for `n < 10000`). -/
def pad4 (n : Nat) : List Char :=
  [digitChar (n / 1000), digitChar (n / 100), digitChar (n / 10), digitChar n]

/-- Days since the Unix epoch to a civil (year, month, day), the standard
era-based conversion used by ECMAScript `Date` for `toISOString`. -/
def civilFromDays (days : Nat) : Nat × Nat × Nat :=
  let z := days + 719468
  let era := z / 146097
  let doe := z % 146097
  let yoe := (doe - doe / 1460 + doe / 36524 - doe / 146096) / 365
  let y := yoe + era * 400
  let doy := doe - (365 * yoe + yoe / 4 - yoe / 100)
  let mp := (5 * doy + 2) / 153
  let d := doy - (153 * mp + 2) / 5 + 1
  let m := if mp < 10 then mp + 3 else mp - 9
  (if m ≤ 2 then y + 1 else y, m, d)

/-- `new Date(t).toISOString()` for an epoch-milliseconds clock value `t`:
the runtime library function the handlers call to build the `ts` field. -/
def toISOString (t : Nat) : String :=
  let msec := t % 1000
  let sec := t / 1000 % 60
  let minute := t / 60000 % 60
  let hour := t / 3600000 % 24
  let days := t / 86400000
  let (y, m, d) := civilFromDays days
  String.mk (pad4 y ++ '-' :: pad2 m ++ '-' :: pad2 d ++ 'T' :: pad2 hour ++
    ':' :: pad2 minute ++ ':' :: pad2 sec ++ '.' :: pad3 msec ++ ['Z'])

/-- Recognizer for the ISO-8601 extended UTC shape `YYYY-MM-DDTHH:MM:SS.mmmZ`
(24 characters, digits in the numeric positions). -/
def isoShape (cs : List Char) : Bool :=
  match cs with
  | [y1, y2, y3, y4, '-', m1, m2, '-', d1, d2, 'T', h1, h2, ':', n1, n2, ':',
     s1, s2, '.', f1, f2, f3, 'Z'] =>
      [y1, y2, y3, y4, m1, m2, d1, d2, h1, h2, n1, n2, s1, s2, f1, f2, f3].all Char.isDigit
  | _ => false

/-- JSON body of the completion message object (`message.content` may be
absent in a malformed upstream response). -/
structure GroqMessage where
  content : Option String
  deriving DecidableEq, Repr

/-- One element of the upstream `choices` array; `message` and `text` may
each be absent. -/
structure GroqChoice where
  message : Option GroqMessage
  text : Option String
  deriving DecidableEq, Repr

/-- The parsed JSON of a successful upstream response; the `choices` array
itself may be absent. -/
structure GroqJson where
  choices : Option (List GroqChoice)
  deriving DecidableEq, Repr

/-- Outcome of the single `fetch` to the Groq chat-completions endpoint:
either an OK response with parsed JSON, or a non-success response whose
body text is `body` (`!r.ok`). -/
inductive FetchOutcome where
  | ok (j : GroqJson)
  | httpError (body : String)
  deriving DecidableEq, Repr

/-- JavaScript `a || b` on two possibly-absent strings: `a` wins only when
present and truthy (non-empty). -/
def jsOr (a b : Option String) : Option String :=
  match a with
  | some s => if s = "" then b else some s
  | none => b

/-- `j?.choices?.[0]?.message?.content || j?.choices?.[0]?.text || ''`:
the text extracted from a successful upstream response. -/
def extractText (j : GroqJson) : String :=
  let c0 := j.choices.bind List.head?
  let viaMessage := c0.bind (fun c => c.message.bind (fun m => m.content))
  let viaText := c0.bind (fun c => c.text)
  match jsOr viaMessage viaText with
  | some s => s
  | none => ""

/-- `callGroq(prompt)`: throws when no `GROQ_KEY` is configured, throws with
the raw upstream body on a non-success HTTP status, and otherwise returns
the extracted text.  The configured key and the fetch outcome are explicit
arguments; thrown `Error`s become `Except.error` of the message. -/
def callGroq (key : String) (f : FetchOutcome) : Except String String :=
  if key = "" then .error "GROQ_KEY not set on server"
  else
    match f with
    | .httpError t => .error ("Groq API error: " ++ t)
    | .ok j => .ok (extractText j)

/-- Server state: the in-memory `history` array and the contents of the
`history.json` file (`none` when the file is absent or was never written). -/
structure ServerState where
  history : List HRec
  disk : Option (List HRec)
  deriving DecidableEq, Repr

/-- `saveHistory()`: writes the whole in-memory array to disk; a write
failure (`writeOk = false`) is caught and logged to the console, leaving
the previous disk contents in place.  Returns the new state and the
console error log of the call. -/
def saveHistory (writeOk : Bool) (s : ServerState) : ServerState × List String :=
  if writeOk then ({ s with disk := some s.history }, [])
  else (s, ["Failed to save history"])

/-- An HTTP response body: a JSON object or a JSON array of record objects. -/
inductive Body where
  | obj (fields : List (String × JVal))
  | arrOfObj (rows : List HRec)
  deriving DecidableEq, Repr

/-- An HTTP response: status code and JSON body. -/
structure HttpResp where
  status : Nat
  body : Body
  deriving DecidableEq, Repr

/-- Observable side effects of one `/ai` or `/ig/caption` request. -/
structure AiEffects where
  upstreamCalled : Bool
  saveAttempted : Bool
  logs : List String
  deriving DecidableEq, Repr

/-- `req.body && req.body.prompt ? String(req.body.prompt) : ''` — a missing
field yields the empty string (and an empty string stays empty). -/
def promptOf : Option String → String
  | none => ""
  | some s => s

/-- The history record pushed by `POST /ai` and `GET /ai/stream`:
`{ id: Date.now(), prompt, reply, ts: new Date().toISOString() }`. -/
def mkAiRec (now : Nat) (prompt reply : String) : HRec :=
  [("id", .num now), ("prompt", .str prompt), ("reply", .str reply),
   ("ts", .str (toISOString now))]

/-- The history record pushed by `POST /ig/caption`:
`{ id, type: 'ig_caption', text, tone, reply, ts }`. -/
def mkCaptionRec (now : Nat) (text tone reply : String) : HRec :=
  [("id", .num now), ("type", .str "ig_caption"), ("text", .str text),
   ("tone", .str tone), ("reply", .str reply), ("ts", .str (toISOString now))]

/-- The `POST /ai` handler: validate the prompt, call the upstream, push a
record and save on success, answer 200 with the reply or 400/500 with an
error message. -/
def postAi (key : String) (f : FetchOutcome) (now : Nat) (writeOk : Bool)
    (reqPrompt : Option String) (s : ServerState) :
    ServerState × HttpResp × AiEffects :=
  let prompt := promptOf reqPrompt
  if prompt = "" then
    (s, ⟨400, .obj [("error", .str "Prompt empty")]⟩, ⟨false, false, []⟩)
  else
    match callGroq key f with
    | .ok reply =>
        let s1 := { s with history := s.history ++ [mkAiRec now prompt reply] }
        let saved := saveHistory writeOk s1
        (saved.1, ⟨200, .obj [("reply", .str reply)]⟩, ⟨true, true, saved.2⟩)
    | .error m =>
        (s, ⟨500, .obj [("error", .str m)]⟩, ⟨true, false, []⟩)

/-- The fixed instruction template `POST /ig/caption` wraps around the
caller-supplied text and tone before delegating to the upstream.  (The
prompt text is part of the request payload; the modelled fetch outcome is
an explicit argument, so the template does not influence it.) -/
def captionPrompt (tone text : String) : String :=
  "Buatkan caption Instagram singkat dan menarik dalam bahasa " ++
    "Indonesia dengan tone " ++ tone ++ " berdasarkan teks ini: " ++ text ++
    ". Sertakan 3 tagar relevan."

/-- The `POST /ig/caption` handler: validate `text`, default `tone` to
`inspiratif`, build the fixed instruction template around the caller text,
call the upstream, push a record and save on success. -/
def igCaption (key : String) (f : FetchOutcome) (now : Nat) (writeOk : Bool)
    (reqText reqTone : Option String) (s : ServerState) :
    ServerState × HttpResp × AiEffects :=
  let text := promptOf reqText
  let tone := match reqTone with
    | some t => if t = "" then "inspiratif" else t
    | none => "inspiratif"
  if text = "" then
    (s, ⟨400, .obj [("error", .str "text missing")]⟩, ⟨false, false, []⟩)
  else
    let _prompt := captionPrompt tone text
    match callGroq key f with
    | .ok reply =>
        let s1 := { s with history := s.history ++ [mkCaptionRec now text tone reply] }
        let saved := saveHistory writeOk s1
        (saved.1, ⟨200, .obj [("caption", .str reply)]⟩, ⟨true, true, saved.2⟩)
    | .error m =>
        (s, ⟨500, .obj [("error", .str m)]⟩, ⟨true, false, []⟩)

/-- The `GET /history` handler: `res.json(history.slice().reverse())`. -/
def getHistory (s : ServerState) : HttpResp :=
  ⟨200, .arrOfObj s.history.reverse⟩

/-- The `POST /history/clear` handler: empty the in-memory array, save,
answer `{ ok: true }`. -/
def historyClear (writeOk : Bool) (s : ServerState) : ServerState × HttpResp :=
  let saved := saveHistory writeOk { s with history := [] }
  (saved.1, ⟨200, .obj [("ok", .bool true)]⟩)

/-- One observable item written on the `/ai/stream` event stream, in
order: a `data: <chunk>` frame, a `setTimeout` pause of `ms`
milliseconds, or a named `event: <name>` frame with a `data:` payload. -/
inductive SSEItem where
  | data (chunk : List Char)
  | pause (ms : Nat)
  | event (name : String) (payload : String)
  deriving DecidableEq, Repr

/-- The chunk of an `SSEItem`, when it is a data frame. -/
def dataOf : SSEItem → Option (List Char)
  | .data c => some c
  | _ => none

/-- The duration of an `SSEItem`, when it is a pause. -/
def pauseOf : SSEItem → Option Nat
  | .pause ms => some ms
  | _ => none

/-- The name/payload of an `SSEItem`, when it is a named event frame. -/
def eventOf : SSEItem → Option (String × String)
  | .event n p => some (n, p)
  | _ => none

/-- The `/ai/stream` emission loop:
`while (sent < reply.length) { write data slice(sent, sent+60); sent += 60; await 120ms }`
over the reply's character sequence. -/
def emitChunks (reply : List Char) : List SSEItem :=
  match reply with
  | [] => []
  | c :: cs => .data ((c :: cs).take 60) :: .pause 120 :: emitChunks ((c :: cs).drop 60)
termination_by reply.length
decreasing_by simp [List.length_drop]; omega

/-- Result of a `GET /ai/stream` request: a plain 400 JSON response when
the prompt is missing (sent before the stream is opened), or the opened
event stream with its ordered items and whether `res.end()` was reached. -/
inductive StreamOut where
  | badRequest (resp : HttpResp)
  | stream (items : List SSEItem) (closed : Bool)
  deriving DecidableEq, Repr

/-- The `GET /ai/stream` handler: validate the prompt, call the upstream;
on success push a history record, save, then emit the reply in 60-character
chunks with a 120 ms pause after each, finish with `event: done` /
`data: [DONE]` and close; on failure write `event: error` with the message
and close (nothing was pushed, nothing emitted before the error). -/
def aiStream (key : String) (f : FetchOutcome) (now : Nat) (writeOk : Bool)
    (qPrompt : Option String) (s : ServerState) : ServerState × StreamOut :=
  let prompt := promptOf qPrompt
  if prompt = "" then
    (s, .badRequest ⟨400, .obj [("error", .str "Prompt missing")]⟩)
  else
    match callGroq key f with
    | .ok reply =>
        let s1 := { s with history := s.history ++ [mkAiRec now prompt reply] }
        let s2 := (saveHistory writeOk s1).1
        (s2, .stream (emitChunks reply.data ++ [.event "done" "[DONE]"]) true)
    | .error m =>
        (s, .stream [.event "error" m] true)

/-- The components of `new URL(url)` that `/yt/transcript` inspects:
hostname, pathname, and the `v` search parameter. -/
structure URLParts where
  hostname : String
  pathname : String
  vParam : Option String
  deriving DecidableEq, Repr

/-- `a.includes(b)` on strings. -/
def strIncludes (s pat : String) : Bool := decide (pat.data <:+: s.data)

/-- The video-id extraction of `/yt/transcript`: start from `null`, the
`youtu.be` branch takes `pathname.slice(1)`, then the `youtube.com` branch
overwrites with the `v` parameter. -/
def extractVid (u : URLParts) : Option String :=
  let vid : Option String := none
  let vid := if strIncludes u.hostname "youtu.be" then some (u.pathname.drop 1) else vid
  let vid := if strIncludes u.hostname "youtube.com" then u.vParam else vid
  vid

/-- JavaScript truthiness filter on a possibly-absent string (`!vid` holds
for `null`/`undefined` and for the empty string). -/
def truthy : Option String → Option String
  | none => none
  | some s => if s = "" then none else some s

/-- The fixed guidance message the transcript stub answers with. -/
def ytStubMsg : String :=
  "Transcript fetching is environment-dependent. Use an external transcript " ++
  "service or provide the text. This endpoint is a stub to show where to " ++
  "implement transcript fetching."

/-- The `GET /yt/transcript` handler: 400 when `url` is missing, a
parse-guidance message when no video id can be extracted, and otherwise the
fixed stub message.  `parsed` is the outcome of `new URL(url)` (`none` when
the constructor throws).  The second component lists the network fetches
the handler performs: the transcript-service URL string is built but never
fetched, so it is always empty. -/
def ytTranscript (url : String) (parsed : Option URLParts) : HttpResp × List String :=
  if url = "" then (⟨400, .obj [("error", .str "url missing")]⟩, [])
  else
    match truthy (parsed.bind extractVid) with
    | none =>
        (⟨200, .obj [("error", .str "Could not parse video id. Provide a full YouTube URL.")]⟩, [])
    | some _vid =>
        (⟨200, .obj [("error", .str ytStubMsg)]⟩, [])

/-- One inbound request together with its environment (clock value at the
`Date.now()` call, fetch outcome, disk-write outcome, request inputs). -/
inductive Op where
  | ai (key : String) (f : FetchOutcome) (now : Nat) (writeOk : Bool)
      (reqPrompt : Option String)
  | stream (key : String) (f : FetchOutcome) (now : Nat) (writeOk : Bool)
      (qPrompt : Option String)
  | caption (key : String) (f : FetchOutcome) (now : Nat) (writeOk : Bool)
      (reqText reqTone : Option String)
  | hist
  | histClear (writeOk : Bool)
  | yt (url : String) (parsed : Option URLParts)
  deriving Repr

/-- The clock value read by the operation (`Date.now()`); operations that
never read the clock report 0. -/
def Op.time : Op → Nat
  | .ai _ _ n _ _ => n
  | .stream _ _ n _ _ => n
  | .caption _ _ n _ _ _ => n
  | _ => 0

/-- The server-state transition of one request. -/
def stepState : Op → ServerState → ServerState
  | .ai k f n w p, s => (postAi k f n w p s).1
  | .stream k f n w q, s => (aiStream k f n w q s).1
  | .caption k f n w tx tn, s => (igCaption k f n w tx tn s).1
  | .hist, s => s
  | .histClear w, s => (historyClear w s).1
  | .yt _ _, s => s

/-- The `id` field of a history record, as a number (0 when absent — every
record the handlers build carries a numeric `id`). -/
def recId (r : HRec) : Nat :=
  match fieldOf r "id" with
  | some (.num n) => n
  | _ => 0

/-- A concrete well-formed OK fetch outcome whose first choice carries
`reply` as the message content. -/
def okFetch (reply : String) : FetchOutcome :=
  .ok ⟨some [⟨some ⟨some reply⟩, none⟩]⟩

/-- Invariants of the history across one request step from state `s` to
state `s2` whose clock read `t`: the step appends at most one record or
clears the log (existing records are never mutated in place); an appended
record carries `id = t` (the `Date.now()` value, an integer) and
`ts = toISOString t`, an ISO-8601-shaped string; and non-decreasing record
ids are preserved when the clock is at or past every stored id. -/
def RecordInvariants (s s2 : ServerState) (t : Nat) : Prop :=
  ((∃ tl, s2.history = s.history ++ tl ∧ tl.length ≤ 1) ∨ s2.history = []) ∧
  (∀ r, s2.history = s.history ++ [r] →
    fieldOf r "id" = some (.num t) ∧
    fieldOf r "ts" = some (.str (toISOString t)) ∧
    isoShape (toISOString t).data = true) ∧
  ((∀ r ∈ s.history, recId r ≤ t) →
    List.Pairwise (· ≤ ·) (s.history.map recId) →
    List.Pairwise (· ≤ ·) (s2.history.map recId))

theorem digitChar_isDigit (n : Nat) : (digitChar n).isDigit = true := by
  have h : n % 10 < 10 := Nat.mod_lt _ (by norm_num)
  unfold digitChar
  interval_cases h : n % 10 <;> decide

theorem isoShape_toISOString (t : Nat) : isoShape (toISOString t).data = true := by
  unfold toISOString
  obtain ⟨y, m, d⟩ := civilFromDays (t / 86400000)
  simp only [pad4, pad2, pad3, String.mk]
  simp [isoShape, digitChar_isDigit]

theorem flatten_data_emitChunks (l : List Char) :
    ((emitChunks l).filterMap dataOf).flatten = l := by
  induction l using emitChunks.induct with
  | case1 => simp [emitChunks]
  | case2 c cs ih =>
      rw [emitChunks]
      simp only [List.filterMap_cons, dataOf, List.flatten_cons, ih]
      simp

theorem length_data_emitChunks (l : List Char) :
    ((emitChunks l).filterMap dataOf).length = (l.length + 59) / 60 := by
  induction l using emitChunks.induct with
  | case1 => simp [emitChunks]
  | case2 c cs ih =>
      rw [emitChunks]
      simp only [List.filterMap_cons, dataOf, List.length_cons, ih, List.length_drop]
      omega

theorem length_pause_emitChunks (l : List Char) :
    ((emitChunks l).filterMap pauseOf).length = (l.length + 59) / 60 := by
  induction l using emitChunks.induct with
  | case1 => simp [emitChunks]
  | case2 c cs ih =>
      rw [emitChunks]
      simp only [List.filterMap_cons, dataOf, pauseOf, List.length_cons, ih, List.length_drop]
      omega

theorem pause_all_120_emitChunks (l : List Char) :
    ∀ d ∈ (emitChunks l).filterMap pauseOf, d = 120 := by
  induction l using emitChunks.induct with
  | case1 => simp [emitChunks]
  | case2 c cs ih =>
      rw [emitChunks]
      simp only [List.filterMap_cons, dataOf, pauseOf, List.mem_cons]
      rintro d (rfl | hd)
      · rfl
      · exact ih d hd

theorem event_emitChunks (l : List Char) :
    (emitChunks l).filterMap eventOf = [] := by
  induction l using emitChunks.induct with
  | case1 => simp [emitChunks]
  | case2 c cs ih =>
      rw [emitChunks]
      simp only [List.filterMap_cons, dataOf, pauseOf, eventOf, ih]

theorem chunk_sizes_emitChunks (l : List Char) :
    ∀ ch ∈ ((emitChunks l).filterMap dataOf).dropLast, ch.length = 60 := by
  induction l using emitChunks.induct with
  | case1 => simp [emitChunks]
  | case2 c cs ih =>
      rw [emitChunks]
      simp only [List.filterMap_cons, dataOf]
      by_cases h : (c :: cs).length ≤ 60
      · have hd : (c :: cs).drop 60 = [] := List.drop_eq_nil_of_le h
        rw [hd]
        simp [emitChunks]
      · have hne : (emitChunks ((c :: cs).drop 60)).filterMap dataOf ≠ [] := by
          have hlen := length_data_emitChunks ((c :: cs).drop 60)
          intro hnil
          rw [hnil] at hlen
          simp only [List.length_nil, List.length_drop] at hlen
          omega
        rw [List.dropLast_cons_of_ne_nil hne]
        intro ch hch
        rcases List.mem_cons.mp hch with rfl | hch2
        · rw [List.length_take]
          omega
        · exact ih ch hch2

/-- C2: `callGroq` fails with the configuration error when no credential is
configured; fails carrying the upstream's raw error body on a non-success
HTTP outcome; on success returns the first completion's message content,
and the empty string when the expected fields are absent. -/
theorem callGroq_contract :
    (∀ f : FetchOutcome, callGroq "" f = .error "GROQ_KEY not set on server") ∧
    (∀ (key t : String), key ≠ "" →
      callGroq key (.httpError t) = .error ("Groq API error: " ++ t)) ∧
    (∀ (key content : String) (c : GroqChoice) (cs : List GroqChoice),
      key ≠ "" → c.message = some ⟨some content⟩ → content ≠ "" →
      callGroq key (.ok ⟨some (c :: cs)⟩) = .ok content) ∧
    (∀ (key : String) (j : GroqJson), key ≠ "" →
      (j.choices.bind List.head?).bind (fun c => c.message.bind (fun m => m.content)) = none →
      (j.choices.bind List.head?).bind (fun c => c.text) = none →
      callGroq key (.ok j) = .ok "") := by
  refine ⟨?_, ?_, ?_, ?_⟩
  · intro f
    simp [callGroq]
  · intro key t hk
    simp [callGroq, hk]
  · intro key content c cs hk hc hne
    simp [callGroq, hk, extractText, hc, jsOr, hne]
  · intro key j hk h1 h2
    simp [callGroq, hk, extractText, h1, h2, jsOr]

theorem callGroq_contract_witness :
    callGroq "" (okFetch "x") = .error "GROQ_KEY not set on server" ∧
    callGroq "k" (.httpError "boom") = .error ("Groq API error: " ++ "boom") ∧
    callGroq "k" (.ok ⟨some [⟨some ⟨some "hello"⟩, none⟩]⟩) = .ok "hello" ∧
    callGroq "k" (.ok ⟨none⟩) = .ok "" :=
  ⟨callGroq_contract.1 (okFetch "x"),
   callGroq_contract.2.1 "k" "boom" (by decide),
   callGroq_contract.2.2.1 "k" "hello" ⟨some ⟨some "hello"⟩, none⟩ [] (by decide) rfl (by decide),
   callGroq_contract.2.2.2 "k" ⟨none⟩ (by decide) rfl rfl⟩

/-- C3: a successful `POST /ai` with a non-empty prompt appends exactly one
record to the history, whose `prompt` field is the request prompt and whose
`reply` field is the reply returned to the caller. -/
theorem postAi_success_appends (key p reply : String) (f : FetchOutcome) (now : Nat)
    (writeOk : Bool) (s : ServerState)
    (hp : p ≠ "") (hok : callGroq key f = .ok reply) :
    (postAi key f now writeOk (some p) s).1.history = s.history ++ [mkAiRec now p reply] ∧
    fieldOf (mkAiRec now p reply) "prompt" = some (.str p) ∧
    fieldOf (mkAiRec now p reply) "reply" = some (.str reply) ∧
    (postAi key f now writeOk (some p) s).2.1 = ⟨200, .obj [("reply", .str reply)]⟩ := by
  refine ⟨?_, rfl, rfl, ?_⟩
  · cases writeOk <;> simp [postAi, promptOf, hp, hok, saveHistory]
  · cases writeOk <;> simp [postAi, promptOf, hp, hok, saveHistory]

theorem postAi_success_appends_witness :
    (postAi "k" (okFetch "hi") 7 true (some "p") ⟨[], none⟩).1.history =
      [].append [mkAiRec 7 "p" "hi"] ∧
    fieldOf (mkAiRec 7 "p" "hi") "prompt" = some (.str "p") ∧
    fieldOf (mkAiRec 7 "p" "hi") "reply" = some (.str "hi") ∧
    (postAi "k" (okFetch "hi") 7 true (some "p") ⟨[], none⟩).2.1 =
      ⟨200, .obj [("reply", .str "hi")]⟩ :=
  postAi_success_appends "k" "p" "hi" (okFetch "hi") 7 true ⟨[], none⟩ (by decide) rfl

/-- C4: `GET /history` returns exactly the reversal of the in-memory
insertion-ordered list: element `i` of the response is element
`n - 1 - i` of the history. -/
theorem getHistory_reverse_order (s : ServerState) :
    getHistory s = ⟨200, .arrOfObj s.history.reverse⟩ ∧
    s.history.reverse.length = s.history.length ∧
    ∀ (i : Nat) (h1 : i < s.history.reverse.length)
      (h2 : s.history.length - 1 - i < s.history.length),
      s.history.reverse.get ⟨i, h1⟩ = s.history.get ⟨s.history.length - 1 - i, h2⟩ := by
  refine ⟨rfl, by simp, ?_⟩
  intro i h1 h2
  simp only [List.get_eq_getElem, List.getElem_reverse]

theorem getHistory_reverse_order_witness :
    getHistory ⟨[mkAiRec 1 "a" "ra", mkAiRec 2 "b" "rb"], none⟩ =
      ⟨200, .arrOfObj [mkAiRec 2 "b" "rb", mkAiRec 1 "a" "ra"]⟩ ∧
    ([mkAiRec 1 "a" "ra", mkAiRec 2 "b" "rb"] : List HRec).reverse.get
        ⟨0, by simp⟩ =
      ([mkAiRec 1 "a" "ra", mkAiRec 2 "b" "rb"] : List HRec).get ⟨1, by simp⟩ := by
  have h := getHistory_reverse_order ⟨[mkAiRec 1 "a" "ra", mkAiRec 2 "b" "rb"], none⟩
  exact ⟨h.1, h.2.2 0 (by simp) (by simp)⟩

/-- C5: after every successful save the disk contents equal the in-memory
list (and the list is untouched by saving); in particular a successful
`POST /history/clear` answers `{ok: true}`, a following `GET /history`
returns the empty sequence, and the disk holds the empty array. -/
theorem save_disk_matches_memory (s : ServerState) :
    (saveHistory true s).1.disk = some (saveHistory true s).1.history ∧
    (saveHistory true s).1.history = s.history ∧
    (historyClear true s).2 = ⟨200, .obj [("ok", .bool true)]⟩ ∧
    getHistory (historyClear true s).1 = ⟨200, .arrOfObj []⟩ ∧
    (historyClear true s).1.disk = some [] := by
  refine ⟨rfl, rfl, rfl, rfl, rfl⟩

/-- C6: when the disk write of a successful `/ai` append fails, the record
stays in memory, the disk is untouched, the caller still gets the 200
success response, and the failure is only logged. -/
theorem postAi_write_failure_swallowed (key p reply : String) (f : FetchOutcome)
    (now : Nat) (s : ServerState)
    (hp : p ≠ "") (hok : callGroq key f = .ok reply) :
    (postAi key f now false (some p) s).1.history = s.history ++ [mkAiRec now p reply] ∧
    (postAi key f now false (some p) s).1.disk = s.disk ∧
    (postAi key f now false (some p) s).2.1 = ⟨200, .obj [("reply", .str reply)]⟩ ∧
    (postAi key f now false (some p) s).2.2.logs = ["Failed to save history"] := by
  simp [postAi, promptOf, hp, hok, saveHistory]

theorem postAi_write_failure_swallowed_witness :
    (postAi "k" (okFetch "hi") 7 false (some "p") ⟨[], some []⟩).1.history =
      [] ++ [mkAiRec 7 "p" "hi"] ∧
    (postAi "k" (okFetch "hi") 7 false (some "p") ⟨[], some []⟩).1.disk = some [] ∧
    (postAi "k" (okFetch "hi") 7 false (some "p") ⟨[], some []⟩).2.1 =
      ⟨200, .obj [("reply", .str "hi")]⟩ ∧
    (postAi "k" (okFetch "hi") 7 false (some "p") ⟨[], some []⟩).2.2.logs =
      ["Failed to save history"] :=
  postAi_write_failure_swallowed "k" "p" "hi" (okFetch "hi") 7 ⟨[], some []⟩ (by decide) rfl

/-- C9: `POST /ai` with a missing or empty prompt answers 400, calls no
upstream, attempts no save, and leaves the whole server state unchanged. -/
theorem postAi_missing_prompt (key : String) (f : FetchOutcome) (now : Nat)
    (writeOk : Bool) (reqPrompt : Option String) (s : ServerState)
    (hp : promptOf reqPrompt = "") :
    postAi key f now writeOk reqPrompt s =
      (s, ⟨400, .obj [("error", .str "Prompt empty")]⟩, ⟨false, false, []⟩) := by
  simp [postAi, hp]

theorem postAi_missing_prompt_witness :
    postAi "k" (okFetch "hi") 7 true none ⟨[], none⟩ =
      (⟨[], none⟩, ⟨400, .obj [("error", .str "Prompt empty")]⟩, ⟨false, false, []⟩) :=
  postAi_missing_prompt "k" (okFetch "hi") 7 true none ⟨[], none⟩ rfl

/-- C10: when the upstream call of `/ai/stream` fails, exactly one named
error event carrying the failure message is written and the connection is
closed; no data fragment is ever written, and the history is untouched. -/
theorem aiStream_error_no_fragments (key p m : String) (f : FetchOutcome)
    (now : Nat) (writeOk : Bool) (s : ServerState)
    (hp : p ≠ "") (herr : callGroq key f = .error m) :
    ∃ items, (aiStream key f now writeOk (some p) s).2 = .stream items true ∧
      items = [.event "error" m] ∧
      items.filterMap dataOf = [] ∧
      items.filterMap eventOf = [("error", m)] ∧
      (aiStream key f now writeOk (some p) s).1 = s := by
  refine ⟨[.event "error" m], ?_, rfl, rfl, rfl, ?_⟩
  · simp [aiStream, promptOf, hp, herr]
  · simp [aiStream, promptOf, hp, herr]

theorem aiStream_error_no_fragments_witness :
    ∃ items, (aiStream "" (okFetch "hi") 7 true (some "p") ⟨[], none⟩).2 =
        .stream items true ∧
      items = [.event "error" "GROQ_KEY not set on server"] ∧
      items.filterMap dataOf = [] ∧
      items.filterMap eventOf = [("error", "GROQ_KEY not set on server")] ∧
      (aiStream "" (okFetch "hi") 7 true (some "p") ⟨[], none⟩).1 = ⟨[], none⟩ :=
  aiStream_error_no_fragments "" "p" "GROQ_KEY not set on server" (okFetch "hi") 7 true
    ⟨[], none⟩ (by decide) rfl

/-- C8: for every syntactically valid YouTube URL (one the URL parser
accepts and from which a truthy video id is extracted) `/yt/transcript`
answers the one fixed stub guidance message; and for every input whatsoever
the handler performs no network fetch and answers one of three fixed
guidance/validation messages, never a transcript. -/
theorem ytTranscript_always_stub (url : String) (u : URLParts) (v : String)
    (hurl : url ≠ "") (hv : truthy (extractVid u) = some v) :
    ytTranscript url (some u) = (⟨200, .obj [("error", .str ytStubMsg)]⟩, []) ∧
    ∀ (url2 : String) (parsed : Option URLParts),
      (ytTranscript url2 parsed).2 = [] ∧
      (ytTranscript url2 parsed).1 ∈
        [(⟨400, .obj [("error", .str "url missing")]⟩ : HttpResp),
         ⟨200, .obj [("error", .str "Could not parse video id. Provide a full YouTube URL.")]⟩,
         ⟨200, .obj [("error", .str ytStubMsg)]⟩] := by
  constructor
  · simp [ytTranscript, hurl, hv]
  · intro url2 parsed
    unfold ytTranscript
    split
    · simp
    · split <;> simp

theorem ytTranscript_always_stub_witness :
    ytTranscript "https://www.youtube.com/watch?v=dQw4w9WgXcQ"
        (some ⟨"www.youtube.com", "/watch", some "dQw4w9WgXcQ"⟩) =
      (⟨200, .obj [("error", .str ytStubMsg)]⟩, []) ∧
    ∀ (url2 : String) (parsed : Option URLParts),
      (ytTranscript url2 parsed).2 = [] ∧
      (ytTranscript url2 parsed).1 ∈
        [(⟨400, .obj [("error", .str "url missing")]⟩ : HttpResp),
         ⟨200, .obj [("error", .str "Could not parse video id. Provide a full YouTube URL.")]⟩,
         ⟨200, .obj [("error", .str ytStubMsg)]⟩] :=
  ytTranscript_always_stub "https://www.youtube.com/watch?v=dQw4w9WgXcQ"
    ⟨"www.youtube.com", "/watch", some "dQw4w9WgXcQ"⟩ "dQw4w9WgXcQ"
    (by decide) (by decide)

/-- C1: for a successful `/ai/stream` with reply of length `L`, the stream
consists of exactly `⌈L/60⌉` data events whose in-order concatenation is
the reply, sliced in order in fragments of exactly 60 characters except
the last, followed by exactly one named completion event `done`/`[DONE]`
after which the connection closes; at least `⌈L/60⌉ - 1` pauses of exactly
120 ms each occur before the completion event. -/
theorem aiStream_chunking (key p reply : String) (f : FetchOutcome) (now : Nat)
    (writeOk : Bool) (s : ServerState)
    (hp : p ≠ "") (hok : callGroq key f = .ok reply) :
    ∃ items, (aiStream key f now writeOk (some p) s).2 = .stream items true ∧
      (items.filterMap dataOf).length = (reply.length + 59) / 60 ∧
      (items.filterMap dataOf).flatten = reply.data ∧
      (∀ ch ∈ (items.filterMap dataOf).dropLast, ch.length = 60) ∧
      (∃ pre, items = pre ++ [.event "done" "[DONE]"] ∧ pre.filterMap eventOf = []) ∧
      items.filterMap eventOf = [("done", "[DONE]")] ∧
      (reply.length + 59) / 60 - 1 ≤ (items.filterMap pauseOf).length ∧
      (∀ d ∈ items.filterMap pauseOf, d = 120) := by
  refine ⟨emitChunks reply.data ++ [.event "done" "[DONE]"], ?_, ?_, ?_, ?_, ?_, ?_, ?_, ?_⟩
  · simp [aiStream, promptOf, hp, hok]
  · rw [List.filterMap_append]
    simp only [List.filterMap_cons, List.filterMap_nil, dataOf, List.append_nil]
    rw [length_data_emitChunks]
    rfl
  · rw [List.filterMap_append]
    simp only [List.filterMap_cons, List.filterMap_nil, dataOf, List.append_nil]
    exact flatten_data_emitChunks reply.data
  · rw [List.filterMap_append]
    simp only [List.filterMap_cons, List.filterMap_nil, dataOf, List.append_nil]
    exact chunk_sizes_emitChunks reply.data
  · exact ⟨emitChunks reply.data, rfl, event_emitChunks reply.data⟩
  · rw [List.filterMap_append, event_emitChunks]
    rfl
  · rw [List.filterMap_append]
    simp only [List.filterMap_cons, List.filterMap_nil, eventOf, pauseOf, List.append_nil]
    rw [length_pause_emitChunks]
    exact Nat.sub_le _ _ |>.trans (by rfl)
  · rw [List.filterMap_append]
    simp only [List.filterMap_cons, List.filterMap_nil, pauseOf, List.append_nil]
    exact pause_all_120_emitChunks reply.data

theorem aiStream_chunking_witness :
    ∃ items, (aiStream "k" (okFetch "hello") 7 true (some "p") ⟨[], none⟩).2 =
        .stream items true ∧
      (items.filterMap dataOf).length = ("hello".length + 59) / 60 ∧
      (items.filterMap dataOf).flatten = "hello".data ∧
      (∀ ch ∈ (items.filterMap dataOf).dropLast, ch.length = 60) ∧
      (∃ pre, items = pre ++ [.event "done" "[DONE]"] ∧ pre.filterMap eventOf = []) ∧
      items.filterMap eventOf = [("done", "[DONE]")] ∧
      ("hello".length + 59) / 60 - 1 ≤ (items.filterMap pauseOf).length ∧
      (∀ d ∈ items.filterMap pauseOf, d = 120) :=
  aiStream_chunking "k" "p" "hello" (okFetch "hello") 7 true ⟨[], none⟩ (by decide) rfl

theorem recordInvariants_of_unchanged {s s2 : ServerState} (t : Nat)
    (hh : s2.history = s.history) : RecordInvariants s s2 t := by
  refine ⟨Or.inl ⟨[], by simp [hh], by simp⟩, ?_, ?_⟩
  · intro r hr
    rw [hh] at hr
    have := congrArg List.length hr
    simp at this
  · intro _ hpw
    rwa [hh]

theorem recordInvariants_of_clear {s s2 : ServerState} (t : Nat)
    (hh : s2.history = []) : RecordInvariants s s2 t := by
  refine ⟨Or.inr hh, ?_, ?_⟩
  · intro r hr
    rw [hh] at hr
    have := congrArg List.length hr
    simp at this
  · intro _ _
    rw [hh]
    simp

theorem recordInvariants_of_append {s s2 : ServerState} (t : Nat) (rec : HRec)
    (hh : s2.history = s.history ++ [rec])
    (hid : fieldOf rec "id" = some (.num t))
    (hts : fieldOf rec "ts" = some (.str (toISOString t))) :
    RecordInvariants s s2 t := by
  refine ⟨Or.inl ⟨[rec], hh, by simp⟩, ?_, ?_⟩
  · intro r hr
    rw [hh] at hr
    have : rec = r := by
      have h2 := List.append_cancel_left hr
      simpa using h2
    subst this
    exact ⟨hid, hts, isoShape_toISOString t⟩
  · intro hle hpw
    rw [hh, List.map_append, List.pairwise_append]
    refine ⟨hpw, by simp, ?_⟩
    intro a ha b hb
    simp only [List.map_cons, List.map_nil, List.mem_singleton] at hb
    subst hb
    obtain ⟨r, hrmem, hr⟩ := List.mem_map.mp ha
    have hb : recId rec = t := by simp [recId, hid]
    rw [hb]
    rw [← hr]
    exact hle r hrmem

/-- C7 (amended): every request step appends at most one record or clears
the log — records are never mutated after creation; an appended record has
an integer `id` equal to the `Date.now()` clock value (hence ids are
non-decreasing in insertion order when the clock is) and a field named `ts`
holding an ISO-8601 timestamp string. -/
theorem history_record_invariants (op : Op) (s : ServerState) :
    RecordInvariants s (stepState op s) op.time := by
  cases op with
  | ai k f n w p =>
      by_cases hp : promptOf p = ""
      · exact recordInvariants_of_unchanged _ (by simp [stepState, postAi, hp])
      · rcases hres : callGroq k f with m | reply
        · exact recordInvariants_of_unchanged _ (by simp [stepState, postAi, hp, hres])
        · refine recordInvariants_of_append n (mkAiRec n (promptOf p) reply) ?_ rfl rfl
          cases w <;> simp [stepState, postAi, hp, hres, saveHistory]
  | stream k f n w q =>
      by_cases hp : promptOf q = ""
      · exact recordInvariants_of_unchanged _ (by simp [stepState, aiStream, hp])
      · rcases hres : callGroq k f with m | reply
        · exact recordInvariants_of_unchanged _ (by simp [stepState, aiStream, hp, hres])
        · refine recordInvariants_of_append n (mkAiRec n (promptOf q) reply) ?_ rfl rfl
          cases w <;> simp [stepState, aiStream, hp, hres, saveHistory]
  | caption k f n w tx tn =>
      by_cases ht : promptOf tx = ""
      · exact recordInvariants_of_unchanged _ (by simp [stepState, igCaption, ht])
      · rcases hres : callGroq k f with m | reply
        · exact recordInvariants_of_unchanged _ (by simp [stepState, igCaption, ht, hres])
        · refine recordInvariants_of_append n
            (mkCaptionRec n (promptOf tx)
              (match tn with
                | some t => if t = "" then "inspiratif" else t
                | none => "inspiratif") reply) ?_ rfl rfl
          cases w <;> simp [stepState, igCaption, ht, hres, saveHistory]
  | hist => exact recordInvariants_of_unchanged _ rfl
  | histClear w =>
      refine recordInvariants_of_clear _ ?_
      cases w <;> simp [stepState, historyClear, saveHistory]
  | yt url parsed => exact recordInvariants_of_unchanged _ rfl

theorem history_record_invariants_witness :
    RecordInvariants ⟨[], none⟩
      (stepState (.ai "k" (okFetch "ok") 5 true (some "p")) ⟨[], none⟩)
      (Op.time (.ai "k" (okFetch "ok") 5 true (some "p"))) :=
  history_record_invariants (.ai "k" (okFetch "ok") 5 true (some "p")) ⟨[], none⟩

/-- C7 counterexample to the claim as stated: the record appended by a
successful `POST /ai` has no field named `timestamp` — its timestamp field
is named `ts` (holding the ISO-8601 string). -/
theorem history_record_timestamp_cex :
    (postAi "k" (okFetch "ok") 0 true (some "p") ⟨[], none⟩).1.history =
      [mkAiRec 0 "p" "ok"] ∧
    fieldOf (mkAiRec 0 "p" "ok") "timestamp" = none ∧
    fieldOf (mkAiRec 0 "p" "ok") "ts" = some (.str "1970-01-01T00:00:00.000Z") := by
  refine ⟨rfl, rfl, ?_⟩
  decide
